import Mathlib

/-!
Verification of the PM Command Center budget computation
(`client/src/components/rich-text-editor.tsx`, `BudgetSheet`) and the
response-section locking/assignment logic
(`client/src/components/response-editor.tsx`, `server/routes.ts`,
`storage.ts`).

Numbers are modelled as exact rationals (the spec mandates decimal
arithmetic for money math), JS strings as Lean `String`s, and nullable
fields as `Option`.
-/

namespace PMCC

/-- JS `s.toLowerCase()`, as a character-wise map (ASCII case folding,
which covers every title and keyword in play). -/
def jsToLower (s : String) : String := ⟨s.data.map Char.toLower⟩

/-- Does the character list `s` start with `pat`? -/
def listStartsWith : List Char → List Char → Bool
  | _, [] => true
  | [], _ :: _ => false
  | c :: cs, p :: ps => c == p && listStartsWith cs ps

/-- Does the character list `s` contain `pat` as a contiguous run? -/
def listContains : List Char → List Char → Bool
  | [], pat => pat.isEmpty
  | c :: cs, pat => listStartsWith (c :: cs) pat || listContains cs pat

/-- JS `s.includes(sub)`: substring containment test. -/
def jsIncludes (s sub : String) : Bool := listContains s.data sub.data

/-- A row of the `users` table as the client sees it: `id`, nullable
`title`, nullable decimal `hourlyRate` (schema.ts lines 7-16). Fields not
used by the budget logic are omitted. -/
structure User where
  id : String
  title : Option String
  hourlyRate : Option ℚ
  deriving Repr, DecidableEq

/-- The client-side `BudgetRow` record (rich-text-editor.tsx lines 402-412):
a person reference, an editable display title, a nullable rate override and
five per-year hour slots. -/
structure BudgetRow where
  id : ℤ
  userId : String
  customTitle : String
  customRate : Option ℚ
  year1 : ℚ
  year2 : ℚ
  year3 : ℚ
  year4 : ℚ
  year5 : ℚ
  deriving Repr, DecidableEq

/-- The `DEFAULT_HOURLY_RATES` record (rich-text-editor.tsx lines 414-421),
modelled as a total lookup from the role key. -/
def DEFAULT_HOURLY_RATES (k : String) : ℚ :=
  if k = "principal" then 250
  else if k = "consultant" then 175
  else if k = "research_associate" then 125
  else if k = "managing_director" then 300
  else if k = "copy_editor" then 100
  else 150

/-- JS `user.title?.toLowerCase() || ""` followed by `title.includes(kw)`:
the keyword test `getDefaultRate` applies to the title of the person. -/
def hasKw (user : User) (kw : String) : Bool :=
  jsIncludes (jsToLower (user.title.getD "")) kw

/-- Function `getDefaultRate` (rich-text-editor.tsx lines 520-530). The user list is
passed explicitly; the component closes over it. -/
def getDefaultRate (users : List User) (userId : String) : ℚ :=
  match users.find? (fun u => u.id == userId) with
  | none => DEFAULT_HOURLY_RATES "default"
  | some user =>
    if hasKw user "principal" then DEFAULT_HOURLY_RATES "principal"
    else if hasKw user "managing" || hasKw user "director" then
      DEFAULT_HOURLY_RATES "managing_director"
    else if hasKw user "consultant" then DEFAULT_HOURLY_RATES "consultant"
    else if hasKw user "research" || hasKw user "associate" then
      DEFAULT_HOURLY_RATES "research_associate"
    else if hasKw user "copy" || hasKw user "editor" then
      DEFAULT_HOURLY_RATES "copy_editor"
    else
      match user.hourlyRate with
      | some r => r
      | none => DEFAULT_HOURLY_RATES "default"

/-- Function `getEffectiveRate` (rich-text-editor.tsx lines 532-534):
`row.customRate !== null ? row.customRate : getDefaultRate(row.userId)`. -/
def getEffectiveRate (users : List User) (row : BudgetRow) : ℚ :=
  match row.customRate with
  | some r => r
  | none => getDefaultRate users row.userId

/-- JS `row.customTitle?.toLowerCase() || ""` followed by `includes(kw)`:
the keyword test `getRoleCategory` applies to the own title of the row. -/
def rowHasKw (row : BudgetRow) (kw : String) : Bool :=
  jsIncludes (jsToLower row.customTitle) kw

/-- Function `getRoleCategory` (rich-text-editor.tsx lines 536-544). -/
def getRoleCategory (row : BudgetRow) : String :=
  if rowHasKw row "principal" then "principal"
  else if rowHasKw row "managing" || rowHasKw row "director" then "managing_director"
  else if rowHasKw row "consultant" then "consultant"
  else if rowHasKw row "research" || rowHasKw row "associate" then "research_associate"
  else if rowHasKw row "copy" || rowHasKw row "editor" then "copy_editor"
  else "default"

/-- Function `calculateRowTotal` (rich-text-editor.tsx lines 546-550):
total hours of the row times its effective rate. -/
def calculateRowTotal (users : List User) (row : BudgetRow) : ℚ :=
  (row.year1 + row.year2 + row.year3 + row.year4 + row.year5) * getEffectiveRate users row

/-- The `row[`year${year}`]` dynamic field access used by
`calculateYearTotal` and the save/update code paths. -/
def BudgetRow.hoursForYear (row : BudgetRow) (year : ℕ) : ℚ :=
  match year with
  | 1 => row.year1
  | 2 => row.year2
  | 3 => row.year3
  | 4 => row.year4
  | 5 => row.year5
  | _ => 0

/-- Function `calculateYearTotal` (rich-text-editor.tsx lines 552-558):
a `reduce` over the rows of hours-in-year times effective rate. -/
def calculateYearTotal (users : List User) (rows : List BudgetRow) (year : ℕ) : ℚ :=
  rows.foldl (fun sum row => sum + row.hoursForYear year * getEffectiveRate users row) 0

/-- Memo `grandTotal` (rich-text-editor.tsx lines 560-562):
a `reduce` over the rows of `calculateRowTotal`. -/
def grandTotal (users : List User) (rows : List BudgetRow) : ℚ :=
  rows.foldl (fun sum row => sum + calculateRowTotal users row) 0

/-- Function `updateRow` specialised to the `customRate` field
(rich-text-editor.tsx lines 509-518): map over the rows, replacing the
field on the row whose id matches. -/
def updateRowCustomRate (rows : List BudgetRow) (id : ℤ) (value : Option ℚ) :
    List BudgetRow :=
  rows.map (fun r => if r.id == id then { r with customRate := value } else r)

/-- Writing the `year${year}` field of a row, as `updateRow` does through a
dynamic key; the keys constructed by the callers are exactly `year1..year5`. -/
def BudgetRow.setYear (r : BudgetRow) (year : ℕ) (v : ℚ) : BudgetRow :=
  match year with
  | 1 => { r with year1 := v }
  | 2 => { r with year2 := v }
  | 3 => { r with year3 := v }
  | 4 => { r with year4 := v }
  | 5 => { r with year5 := v }
  | _ => r

/-- Function `updateRow` specialised to a `year${year}` field
(rich-text-editor.tsx lines 509-518). -/
def updateRowYearHours (rows : List BudgetRow) (id : ℤ) (year : ℕ) (v : ℚ) :
    List BudgetRow :=
  rows.map (fun r => if r.id == id then r.setYear year v else r)

/-- The coercion the rate Input onChange applies before storing
(rich-text-editor.tsx line 785): `parseFloat(e.target.value) || null`. The
argument is the result of `parseFloat` (`none` for NaN); JS `||` replaces
any falsy left operand (NaN, 0, -0) by `null`. -/
def rateInputStore (parsed : Option ℚ) : Option ℚ :=
  match parsed with
  | some x => if x = 0 then none else some x
  | none => none

/-- The rate Input onChange handler (rich-text-editor.tsx lines 781-788):
`updateRow(row.id, "customRate", parseFloat(e.target.value) || null)`. -/
def rateInputOnChange (rows : List BudgetRow) (id : ℤ) (parsed : Option ℚ) :
    List BudgetRow :=
  updateRowCustomRate rows id (rateInputStore parsed)

/-- The coercion the year-hours Input onChange applies
(rich-text-editor.tsx line 799): `parseFloat(e.target.value) || 0`. A NaN
(or zero) parse becomes 0; any other value, negative included, is kept. -/
def hoursInputStore (parsed : Option ℚ) : ℚ :=
  match parsed with
  | some x => x
  | none => 0

/-- The year-hours Input onChange handler (rich-text-editor.tsx lines
794-802): `updateRow(row.id, yearKey, parseFloat(e.target.value) || 0)`. -/
def hoursInputOnChange (rows : List BudgetRow) (id : ℤ) (year : ℕ)
    (parsed : Option ℚ) : List BudgetRow :=
  updateRowYearHours rows id year (hoursInputStore parsed)

/-- A row of `response_sections` as the client sees it (schema.ts lines
68-80): nullable assignee, lock flag, nullable lock holder. Fields the
locking/assignment logic ignores (content, ordering, timestamps) are
omitted. -/
structure Sect where
  id : ℤ
  title : String
  assignedUserId : Option String
  isLocked : Bool
  lockedByPmId : Option String
  deriving Repr, DecidableEq

/-- Query `canEdit` (response-editor.tsx line 357):
`isPM || (!section.isLocked && section.assignedUserId === currentUserId)`. -/
def canEdit (sec : Sect) (currentUserId : String) (isPM : Bool) : Bool :=
  isPM || (!sec.isLocked && sec.assignedUserId == some currentUserId)

/-- The lock-toggle write (response-editor.tsx lines 182-193 composed with
routes.ts lines 313-324 and storage `updateResponseSection`): the PATCH body
is `{ isLocked, lockedByPmId: isLocked ? currentUserId : null }` and the
server applies it unconditionally to the addressed section. -/
def toggleLockPatch (sec : Sect) (isLocked : Bool) (currentUserId : String) :
    Sect :=
  { sec with
    isLocked := isLocked
    lockedByPmId := if isLocked then some currentUserId else none }

/-- The assignment write (response-editor.tsx lines 195-205 composed with
routes.ts lines 313-324): the PATCH body is `{ assignedUserId: userId }`,
applied unconditionally by the server. -/
def assignUserPatch (sec : Sect) (userId : Option String) : Sect :=
  { sec with assignedUserId := userId }

/-- The client-side gate on the assignee Select (response-editor.tsx line
388): `disabled={!isPM}` — assignment is disabled for every non-manager,
whatever the lock state. -/
def assignSelectDisabled (isPM : Bool) : Bool := !isPM

/-- Conjunction of all eight keyword tests on the title of the person being
false: the two final fallbacks of `getDefaultRate` are reached exactly
then. -/
def noTitleKw (user : User) : Bool :=
  !(hasKw user "principal" || hasKw user "managing" || hasKw user "director" ||
    hasKw user "consultant" || hasKw user "research" || hasKw user "associate" ||
    hasKw user "copy" || hasKw user "editor")

/-- Conjunction of all eight keyword tests on the own title of the row being
false: `getRoleCategory` falls through to `"default"` exactly then. -/
def noRowKw (row : BudgetRow) : Bool :=
  !(rowHasKw row "principal" || rowHasKw row "managing" || rowHasKw row "director" ||
    rowHasKw row "consultant" || rowHasKw row "research" || rowHasKw row "associate" ||
    rowHasKw row "copy" || rowHasKw row "editor")

theorem foldl_add_eq (f : BudgetRow → ℚ) (a : ℚ) (l : List BudgetRow) :
    l.foldl (fun s r => s + f r) a = a + (l.map f).sum := by
  induction l generalizing a with
  | nil => simp
  | cons x xs ih => simp [ih]; ring

/-- Claim C1: with the referenced person found, `getEffectiveRate` follows
the exact precedence: row override verbatim; else the person-title keyword
cascade principal 250, managing/director 300, consultant 175,
research/associate 125, copy/editor 100, in that order; else the explicit
hourly rate of the person; else 150. A person titled
"Principal Managing Director" resolves to 250, not 300. -/
theorem C1_effectiveRate_precedence (users : List User) (row : BudgetRow)
    (user : User)
    (hfind : users.find? (fun u => u.id == row.userId) = some user) :
    (∀ r, row.customRate = some r → getEffectiveRate users row = r)
    ∧ (row.customRate = none → hasKw user "principal" = true →
        getEffectiveRate users row = 250)
    ∧ (row.customRate = none → hasKw user "principal" = false →
        (hasKw user "managing" = true ∨ hasKw user "director" = true) →
        getEffectiveRate users row = 300)
    ∧ (row.customRate = none → hasKw user "principal" = false →
        hasKw user "managing" = false → hasKw user "director" = false →
        hasKw user "consultant" = true → getEffectiveRate users row = 175)
    ∧ (row.customRate = none → hasKw user "principal" = false →
        hasKw user "managing" = false → hasKw user "director" = false →
        hasKw user "consultant" = false →
        (hasKw user "research" = true ∨ hasKw user "associate" = true) →
        getEffectiveRate users row = 125)
    ∧ (row.customRate = none → hasKw user "principal" = false →
        hasKw user "managing" = false → hasKw user "director" = false →
        hasKw user "consultant" = false → hasKw user "research" = false →
        hasKw user "associate" = false →
        (hasKw user "copy" = true ∨ hasKw user "editor" = true) →
        getEffectiveRate users row = 100)
    ∧ (∀ hr, row.customRate = none → noTitleKw user = true →
        user.hourlyRate = some hr → getEffectiveRate users row = hr)
    ∧ (row.customRate = none → noTitleKw user = true →
        user.hourlyRate = none → getEffectiveRate users row = 150)
    ∧ (row.customRate = none →
        user.title = some "Principal Managing Director" →
        getEffectiveRate users row = 250) := by
  refine ⟨?_, ?_, ?_, ?_, ?_, ?_, ?_, ?_, ?_⟩
  · intro r h
    simp [getEffectiveRate, h]
  · intro h hkw
    simp [getEffectiveRate, h, getDefaultRate, hfind, hkw, DEFAULT_HOURLY_RATES]
  · intro h hkw hmd
    rcases hmd with hm | hm <;>
      simp [getEffectiveRate, h, getDefaultRate, hfind, hkw, hm,
        DEFAULT_HOURLY_RATES]
  · intro h h1 h2 h3 hkw
    simp [getEffectiveRate, h, getDefaultRate, hfind, h1, h2, h3, hkw,
      DEFAULT_HOURLY_RATES]
  · intro h h1 h2 h3 h4 hra
    rcases hra with hm | hm <;>
      simp [getEffectiveRate, h, getDefaultRate, hfind, h1, h2, h3, h4, hm,
        DEFAULT_HOURLY_RATES]
  · intro h h1 h2 h3 h4 h5 h6 hce
    rcases hce with hm | hm <;>
      simp [getEffectiveRate, h, getDefaultRate, hfind, h1, h2, h3, h4, h5, h6,
        hm, DEFAULT_HOURLY_RATES]
  · intro hr h hno hrate
    simp only [noTitleKw, Bool.not_eq_true', Bool.or_eq_false_iff] at hno
    obtain ⟨⟨⟨⟨⟨⟨⟨k1, k2⟩, k3⟩, k4⟩, k5⟩, k6⟩, k7⟩, k8⟩ := hno
    simp [getEffectiveRate, h, getDefaultRate, hfind, k1, k2, k3, k4, k5, k6,
      k7, k8, hrate]
  · intro h hno hrate
    simp only [noTitleKw, Bool.not_eq_true', Bool.or_eq_false_iff] at hno
    obtain ⟨⟨⟨⟨⟨⟨⟨k1, k2⟩, k3⟩, k4⟩, k5⟩, k6⟩, k7⟩, k8⟩ := hno
    simp [getEffectiveRate, h, getDefaultRate, hfind, k1, k2, k3, k4, k5, k6,
      k7, k8, hrate, DEFAULT_HOURLY_RATES]
  · intro h htitle
    have hkw : hasKw user "principal" = true := by
      simp [hasKw, htitle, jsToLower, jsIncludes]
      decide
    simp [getEffectiveRate, h, getDefaultRate, hfind, hkw, DEFAULT_HOURLY_RATES]

def userPMD : User :=
  { id := "u2", title := some "Principal Managing Director", hourlyRate := none }

def rowPMD : BudgetRow :=
  { id := 2
    userId := "u2"
    customTitle := "Principal Managing Director"
    customRate := none
    year1 := 10
    year2 := 0
    year3 := 0
    year4 := 0
    year5 := 0 }

theorem C1_effectiveRate_precedence_witness :
    getEffectiveRate [userPMD] rowPMD = 250 :=
  (C1_effectiveRate_precedence [userPMD] rowPMD userPMD rfl).2.2.2.2.2.2.2.2
    rfl rfl

/-- Claim C2: `canEdit` is true iff the actor is a manager, or the section
is unlocked and assigned to the actor; for an assigned non-manager it is
true exactly when the section is unlocked, and locking the section alone
(assignment untouched) makes it false. -/
theorem C2_canEdit_iff (sec : Sect) (uid : String) (isPM : Bool) :
    (canEdit sec uid isPM = true ↔
      (isPM = true ∨ (sec.isLocked = false ∧ sec.assignedUserId = some uid)))
    ∧ (isPM = false → sec.assignedUserId = some uid →
        ((canEdit sec uid false = true ↔ sec.isLocked = false)
          ∧ canEdit { sec with isLocked := true } uid false = false)) := by
  constructor
  · cases isPM <;> cases h : sec.isLocked <;>
      simp [canEdit, h, beq_iff_eq]
  · intro hpm hasg
    cases h : sec.isLocked <;>
      simp [canEdit, h, hasg]

def secAssigned : Sect :=
  { id := 7
    title := "Introduction"
    assignedUserId := some "alice"
    isLocked := false
    lockedByPmId := none }

theorem C2_canEdit_iff_witness :
    canEdit secAssigned "alice" false = true
    ∧ canEdit { secAssigned with isLocked := true } "alice" false = false :=
  ⟨((C2_canEdit_iff secAssigned "alice" false).1).mpr (Or.inr ⟨rfl, rfl⟩),
   ((C2_canEdit_iff secAssigned "alice" false).2 rfl rfl).2⟩

/-- Claim C3: for every user list and every row list, `grandTotal` is the
sum of the per-row totals, and also equals the sum over years 1..5 of
`calculateYearTotal` — the cross-aggregation identity. Over the exact
rational model the identity is exact, hence within any epsilon of 0. -/
theorem C3_cross_aggregation (users : List User) (rows : List BudgetRow) :
    grandTotal users rows = (rows.map (fun r => calculateRowTotal users r)).sum
    ∧ grandTotal users rows =
        calculateYearTotal users rows 1 + calculateYearTotal users rows 2 +
        calculateYearTotal users rows 3 + calculateYearTotal users rows 4 +
        calculateYearTotal users rows 5 := by
  have hG : ∀ l : List BudgetRow,
      grandTotal users l = (l.map (fun r => calculateRowTotal users r)).sum := by
    intro l
    simpa [grandTotal] using
      foldl_add_eq (fun r => calculateRowTotal users r) 0 l
  have hY : ∀ (y : ℕ) (l : List BudgetRow),
      calculateYearTotal users l y =
        (l.map (fun r => r.hoursForYear y * getEffectiveRate users r)).sum := by
    intro y l
    simpa [calculateYearTotal] using
      foldl_add_eq (fun r => r.hoursForYear y * getEffectiveRate users r) 0 l
  refine ⟨hG rows, ?_⟩
  rw [hG, hY, hY, hY, hY, hY]
  induction rows with
  | nil => simp
  | cons r rs ih =>
    simp only [List.map_cons, List.sum_cons]
    rw [show ∀ x1 x2 y1 y2 z1 z2 w1 w2 v1 v2 : ℚ,
        (x1 + x2) + (y1 + y2) + (z1 + z2) + (w1 + w2) + (v1 + v2)
          = (x1 + y1 + z1 + w1 + v1) + (x2 + y2 + z2 + w2 + v2) from
      fun _ _ _ _ _ _ _ _ _ _ => by ring]
    rw [← ih]
    simp only [calculateRowTotal, BudgetRow.hoursForYear]
    ring

/-- Claim C4: `getRoleCategory` is keyed on the editable title of the row
itself while `getEffectiveRate` is keyed on the title of the referenced
person: with no
override, retitling the row "Consultant" while the person stays titled
"Principal" yields category `consultant` but leaves the effective rate at
the Principal rate 250. -/
theorem C4_independent_keys (users : List User) (row : BudgetRow)
    (user : User)
    (hfind : users.find? (fun u => u.id == row.userId) = some user)
    (hover : row.customRate = none)
    (htitle : user.title = some "Principal") :
    getRoleCategory { row with customTitle := "Consultant" } = "consultant"
    ∧ getEffectiveRate users { row with customTitle := "Consultant" } = 250
    ∧ getEffectiveRate users { row with customTitle := "Consultant" }
        = getEffectiveRate users row := by
  have hkw : hasKw user "principal" = true := by
    simp [hasKw, htitle, jsToLower, jsIncludes]
    decide
  have hrate : getEffectiveRate users { row with customTitle := "Consultant" }
      = 250 := by
    simp [getEffectiveRate, hover, getDefaultRate, hfind, hkw,
      DEFAULT_HOURLY_RATES]
  refine ⟨?_, hrate, ?_⟩
  · simp [getRoleCategory, rowHasKw, jsToLower, jsIncludes]
    decide
  · rw [hrate]
    simp [getEffectiveRate, hover, getDefaultRate, hfind, hkw,
      DEFAULT_HOURLY_RATES]

def userPrincipal : User :=
  { id := "u1", title := some "Principal", hourlyRate := none }

def rowSarah : BudgetRow :=
  { id := 1
    userId := "u1"
    customTitle := "Principal"
    customRate := none
    year1 := 10
    year2 := 0
    year3 := 0
    year4 := 0
    year5 := 0 }

theorem C4_independent_keys_witness :
    getRoleCategory { rowSarah with customTitle := "Consultant" } = "consultant"
    ∧ getEffectiveRate [userPrincipal]
        { rowSarah with customTitle := "Consultant" } = 250 :=
  ⟨(C4_independent_keys [userPrincipal] rowSarah userPrincipal rfl rfl rfl).1,
   (C4_independent_keys [userPrincipal] rowSarah userPrincipal rfl rfl rfl).2.1⟩

/-- Claim C5, evaluated at the failing input: a zero override stored
directly does zero out the row total (`getEffectiveRate` checks
`!== null`, so the falsy-but-valid zero wins), but a zero entered through
the rate Input is coerced by `parseFloat(value) || null` to null — the
override is cleared, and the row total reverts to the derived Principal
rate: 10 hours give 2500, not 0. The edit boundary contradicts the
null-only test inside the resolver itself. -/
theorem C5_zero_override_boundary :
    calculateRowTotal [userPrincipal] { rowSarah with customRate := some 0 } = 0
    ∧ rateInputStore (some 0) = none
    ∧ rateInputOnChange [rowSarah] 1 (some 0) = [rowSarah]
    ∧ (rateInputOnChange [rowSarah] 1 (some 0)).map
        (fun r => calculateRowTotal [userPrincipal] r) = [2500] := by
  have h3 : rateInputOnChange [rowSarah] 1 (some 0) = [rowSarah] := rfl
  refine ⟨by simp [calculateRowTotal, getEffectiveRate], rfl, h3, ?_⟩
  rw [h3]
  have hr : getEffectiveRate [userPrincipal] rowSarah = 250 := by decide
  simp only [List.map_cons, List.map_nil, calculateRowTotal]
  rw [hr]
  norm_num [rowSarah]

def secLockedA : Sect :=
  { id := 7
    title := "Introduction"
    assignedUserId := some "carol"
    isLocked := true
    lockedByPmId := some "manager-a" }

/-- Claim C6 as stated is false on the code: the lock write is an
unconditional PATCH, so a lock by manager-b on a section already locked by
manager-a does not fail with any `AlreadyLockedError` (none exists in the
code) — it succeeds and transfers the lock holder to manager-b, changing
the state the claim says is left untouched by a failed attempt. -/
theorem C6_lock_counterexample :
    secLockedA.isLocked = true
    ∧ secLockedA.lockedByPmId = some "manager-a"
    ∧ (toggleLockPatch secLockedA true "manager-b").lockedByPmId
        = some "manager-b"
    ∧ toggleLockPatch secLockedA true "manager-b" ≠ secLockedA := by
  refine ⟨rfl, rfl, rfl, ?_⟩
  intro h
  have := congrArg Sect.lockedByPmId h
  simp [toggleLockPatch, secLockedA] at this

/-- Claim C6 amended: a lock write always succeeds and installs the acting
manager as the sole lock holder (last write wins, so a different prior
holder is silently replaced rather than rejected); relocking by the actor
who already holds the lock is an idempotent no-op; after any lock write
there is exactly one holder — the acting manager. -/
theorem C6_lock_last_write_wins (sec : Sect) (a b : String) :
    (toggleLockPatch sec true b).isLocked = true
    ∧ (toggleLockPatch sec true b).lockedByPmId = some b
    ∧ (sec.isLocked = true → sec.lockedByPmId = some a →
        toggleLockPatch sec true a = sec)
    ∧ (∀ v, (toggleLockPatch sec true b).lockedByPmId = some v → v = b) := by
  refine ⟨rfl, rfl, ?_, ?_⟩
  · intro hl hby
    cases sec
    simp only [toggleLockPatch, if_pos]
    simp_all
  · intro v hv
    simp [toggleLockPatch] at hv
    exact hv.symm

theorem C6_lock_last_write_wins_witness :
    toggleLockPatch secLockedA true "manager-a" = secLockedA :=
  (C6_lock_last_write_wins secLockedA "manager-a" "manager-b").2.2.1 rfl rfl

/-- Claim C7 as stated is false on the code: there is no
`SectionLockedError` — the server applies an assignment PATCH to a locked
section unconditionally for any caller, so the non-manager call the claim
says must fail instead succeeds and changes the assignment (the only
non-manager guard is the disabled assignee Select in the client, which
applies to unlocked sections too). -/
theorem C7_assign_counterexample :
    secLockedA.isLocked = true
    ∧ secLockedA.assignedUserId = some "carol"
    ∧ (assignUserPatch secLockedA (some "dave")).assignedUserId = some "dave"
    ∧ assignUserPatch secLockedA (some "dave") ≠ secLockedA := by
  refine ⟨rfl, rfl, rfl, ?_⟩
  intro h
  have := congrArg Sect.assignedUserId h
  simp [assignUserPatch, secLockedA] at this

/-- Claim C7 amended: an assignment write on any section — locked or not —
succeeds, changes exactly the assignment, and leaves the lock flag and the
lock holder unchanged (lock and assignment are independent axes); the
client forbids non-managers from issuing the call at all by disabling the
assignee control, rather than by raising a `SectionLockedError`. -/
theorem C7_assign_independent_of_lock (sec : Sect) (uid : Option String) :
    (assignUserPatch sec uid).assignedUserId = uid
    ∧ (assignUserPatch sec uid).isLocked = sec.isLocked
    ∧ (assignUserPatch sec uid).lockedByPmId = sec.lockedByPmId
    ∧ assignSelectDisabled false = true
    ∧ assignSelectDisabled true = false := by
  exact ⟨rfl, rfl, rfl, rfl, rfl⟩

def rowHours40 : BudgetRow :=
  { id := 1
    userId := "u1"
    customTitle := "Principal"
    customRate := none
    year1 := 0
    year2 := 0
    year3 := 40
    year4 := 0
    year5 := 0 }

/-- Claim C8 as stated is false on the code: no `InvalidHoursError` exists;
the year-hours onChange stores `parseFloat(value) || 0`, which keeps any
parsed number, negatives included, so a call with hours -5 is not rejected
— it changes year-3 hours from 40 to -5 instead of leaving the row
unchanged. -/
theorem C8_negative_hours_counterexample :
    (hoursInputOnChange [rowHours40] 1 3 (some (-5))).map (fun r => r.year3)
      = [-5]
    ∧ hoursInputOnChange [rowHours40] 1 3 (some (-5)) ≠ [rowHours40] := by
  refine ⟨by decide, ?_⟩
  intro h
  have := congrArg (fun l => l.map (fun r : BudgetRow => r.year3)) h
  simp only [hoursInputOnChange, updateRowYearHours, hoursInputStore] at this
  revert this
  decide

/-- Claim C8 amended: a hours write overwrites the prior value rather than
adding to it (a second write to the same year erases the first entirely);
only the keys `year1..year5` exist, so a year outside 1..5 writes nothing;
negative hours are accepted as-is — no `InvalidHoursError` is raised (the
min attribute of the Input is advisory only). -/
theorem C8_setHours_overwrites (rows : List BudgetRow) (id : ℤ) (v w : ℚ)
    (r : BudgetRow) :
    updateRowYearHours (updateRowYearHours rows id 3 v) id 3 w
      = updateRowYearHours rows id 3 w
    ∧ (r.setYear 3 (-5)).year3 = -5
    ∧ r.setYear 0 v = r
    ∧ r.setYear 6 v = r := by
  refine ⟨?_, rfl, rfl, rfl⟩
  induction rows with
  | nil => rfl
  | cons a l ih =>
    simp only [updateRowYearHours, List.map_cons] at ih ⊢
    refine congrArg₂ List.cons ?_ ih
    by_cases h : (a.id == id) = true
    · have h2 : ((BudgetRow.setYear a 3 v).id == id) = true := h
      simp only [h, h2, if_true]
      rfl
    · simp only [if_neg h]

/-- Claim C9: the resolvers are total functions (they are defined for every
user list and every row, and raise nothing): a row whose person id matches
no known user resolves to the global default 150 when it has no override; a
found user with no override, a keyword-free (or missing) title and no
explicit hourly rate also resolves to 150; and a row whose own title
matches no keyword gets the role category `default`. -/
theorem C9_resolvers_total (users : List User) (row : BudgetRow)
    (user : User) :
    (users.find? (fun u => u.id == row.userId) = none →
      row.customRate = none → getEffectiveRate users row = 150)
    ∧ (users.find? (fun u => u.id == row.userId) = some user →
        row.customRate = none → noTitleKw user = true →
        user.hourlyRate = none → getEffectiveRate users row = 150)
    ∧ (noRowKw row = true → getRoleCategory row = "default") := by
  refine ⟨?_, ?_, ?_⟩
  · intro hfind hover
    simp [getEffectiveRate, hover, getDefaultRate, hfind, DEFAULT_HOURLY_RATES]
  · intro hfind hover hno hrate
    simp only [noTitleKw, Bool.not_eq_true', Bool.or_eq_false_iff] at hno
    obtain ⟨⟨⟨⟨⟨⟨⟨k1, k2⟩, k3⟩, k4⟩, k5⟩, k6⟩, k7⟩, k8⟩ := hno
    simp [getEffectiveRate, hover, getDefaultRate, hfind, k1, k2, k3, k4, k5,
      k6, k7, k8, hrate, DEFAULT_HOURLY_RATES]
  · intro hno
    simp only [noRowKw, Bool.not_eq_true', Bool.or_eq_false_iff] at hno
    obtain ⟨⟨⟨⟨⟨⟨⟨k1, k2⟩, k3⟩, k4⟩, k5⟩, k6⟩, k7⟩, k8⟩ := hno
    simp [getRoleCategory, k1, k2, k3, k4, k5, k6, k7, k8]

def userTeamLead : User :=
  { id := "u9", title := some "Team Lead", hourlyRate := none }

def rowOrphan : BudgetRow :=
  { id := 9
    userId := "ghost"
    customTitle := ""
    customRate := none
    year1 := 0
    year2 := 0
    year3 := 0
    year4 := 0
    year5 := 0 }

def rowTeamLead : BudgetRow :=
  { id := 10
    userId := "u9"
    customTitle := "Team Lead"
    customRate := none
    year1 := 0
    year2 := 0
    year3 := 0
    year4 := 0
    year5 := 0 }

theorem C9_resolvers_total_witness :
    getEffectiveRate [] rowOrphan = 150
    ∧ getEffectiveRate [userTeamLead] rowTeamLead = 150
    ∧ getRoleCategory rowOrphan = "default" :=
  ⟨(C9_resolvers_total [] rowOrphan userTeamLead).1 rfl rfl,
   (C9_resolvers_total [userTeamLead] rowTeamLead userTeamLead).2.1
     (by decide) rfl (by decide) rfl,
   (C9_resolvers_total [] rowOrphan userTeamLead).2.2 (by decide)⟩

/-- Claim C10: the lock-toggle write always updates the lock flag and the
lock-holder field together — locking installs the acting user as holder in
the same write and unlocking clears the holder in the same write — so a
section produced by the toggle is locked iff it has a holder. -/
theorem C10_lock_holder_coupled (sec : Sect) (b : Bool) (uid : String) :
    ((toggleLockPatch sec b uid).isLocked = true ↔
      (toggleLockPatch sec b uid).lockedByPmId ≠ none)
    ∧ (toggleLockPatch sec b uid).isLocked = b
    ∧ (toggleLockPatch sec b uid).lockedByPmId
        = (if b then some uid else none) := by
  cases b <;> simp [toggleLockPatch]

theorem C10_lock_holder_coupled_witness :
    (toggleLockPatch secAssigned true "pm-user-id").lockedByPmId
      = some "pm-user-id"
    ∧ (toggleLockPatch secAssigned false "pm-user-id").lockedByPmId = none :=
  ⟨((C10_lock_holder_coupled secAssigned true "pm-user-id").2.2).trans rfl,
   ((C10_lock_holder_coupled secAssigned false "pm-user-id").2.2).trans rfl⟩

end PMCC
